import Mathlib

/-!
Verification of the newsletter-delivery core of the zero2prod service.

The development shallowly embeds the Rust sources:

* `src/issue_delivery_worker.rs` — the delivery worker
  (`dequeue_task`, `delete_task`, `get_issue`, `try_execute_task`,
  `worker_loop`), modelled as a deterministic step function over an
  explicit database state, plus a small labelled-transition system for
  the concurrent claim protocol (`SELECT ... FOR UPDATE SKIP LOCKED`).
* `src/routes/admin/newsletters/post.rs` — the publish handler
  (`publish_newsletter`, `get_confirmed_subscribers`), modelled as a
  pure function from the database and request parameters to the gateway
  calls performed and the HTTP-level result.
* `src/domain/subscriber_email.rs` — `SubscriberEmail::from_str`.

External collaborators (the `validator` crate address check and the
email gateway) are parameters of an `Env` record, as the spec treats
them as black boxes.
-/

namespace Zero2Prod

/-- External collaborators, passed as oracles: `validEmail` is
`validator::ValidateEmail::validate_email` (applied to the trimmed
address, as `SubscriberEmail::from_str` does), and `sendOk` is the
outcome of `EmailClient::send_email` for a given recipient address
(`true` = `Ok`, `false` = gateway error). -/
structure Env where
  validEmail : String → Bool
  sendOk : String → Bool

/-- Row of the `newsletter_issues` table (struct `NewsletterIssue` in
`issue_delivery_worker.rs`). -/
structure NewsletterIssue where
  title : String
  text_content : String
  html_content : String
deriving DecidableEq, Repr

/-- Row of the `issue_delivery_queue` table: one pending delivery task.
The composite key `(newsletter_issue_id, subscriber_email)` is the whole
row; `Uuid` is modelled as an opaque `Nat`. -/
structure Task where
  newsletter_issue_id : Nat
  subscriber_email : String
deriving DecidableEq, Repr

/-- The database state seen by the worker: the delivery queue and the
issue store. -/
structure Db where
  issue_delivery_queue : List Task
  newsletter_issues : List (Nat × NewsletterIssue)
deriving DecidableEq, Repr

/-- Rust `str::trim`: the input without leading and trailing
whitespace. (Lean's own `String.trim` is extensionally the same but
does not reduce inside `decide`, so the character-list form is used.)
-/
def rust_trim (s : String) : String :=
  ⟨((s.data.dropWhile Char.isWhitespace).reverse.dropWhile Char.isWhitespace).reverse⟩

/-- `SubscriberEmail::from_str` (src/domain/subscriber_email.rs): trims
the input and accepts it iff the external validator does. -/
def SubscriberEmail.from_str (env : Env) (s : String) : Except String String :=
  if env.validEmail (rust_trim s) then Except.ok (rust_trim s)
  else Except.error ("Invalid email address " ++ s)

/-- The `WHERE` predicate of `delete_task`: row matches the composite
key `(issue_id, email)`. Since a `Task` is exactly its key, this holds
iff the row equals `⟨issue_id, email⟩`. -/
def task_key_eq (r : Task) (issue_id : Nat) (email : String) : Bool :=
  r.newsletter_issue_id == issue_id && r.subscriber_email == email

/-- `dequeue_task` viewed by a single worker with no competing claims:
`SELECT ... FOR UPDATE SKIP LOCKED LIMIT 1` returns some pending row or
none. SQL row order is unspecified; the model reads the first row.
(The concurrent, multi-caller view of the same statement is the `Conc`
transition system below.) -/
def dequeue_task (db : Db) : Option Task :=
  db.issue_delivery_queue.head?

/-- `delete_task`: `DELETE FROM issue_delivery_queue WHERE
newsletter_issue_id = $1 AND subscriber_email = $2`, then commit. -/
def delete_task (db : Db) (issue_id : Nat) (email : String) : Db :=
  { db with issue_delivery_queue :=
      db.issue_delivery_queue.filter fun r => !(task_key_eq r issue_id email) }

/-- `get_issue`: `SELECT title, text_content, html_content FROM
newsletter_issues WHERE newsletter_issue_id = $1` via `fetch_one`, which
fails with `RowNotFound` when the row is absent. -/
def get_issue (db : Db) (issue_id : Nat) : Except String NewsletterIssue :=
  match db.newsletter_issues.lookup issue_id with
  | some issue => Except.ok issue
  | none => Except.error "RowNotFound"

/-- `ExecutionOutcome` from `issue_delivery_worker.rs`. -/
inductive ExecutionOutcome where
  | TaskCompleted
  | EmptyQueue
deriving DecidableEq, Repr

/-- Observable actions of one worker iteration, tagged with the claimed
row they concern: the address validation (`SubscriberEmail::from_str`),
the issue fetch (`get_issue`), and the gateway call
(`EmailClient::send_email`, carrying its outcome). -/
inductive Ev where
  | validate (t : Task)
  | fetchIssue (t : Task)
  | gatewaySend (t : Task) (ok : Bool)
deriving DecidableEq, Repr

instance {α β : Type} [DecidableEq α] [DecidableEq β] : DecidableEq (Except α β) :=
  fun a b =>
    match a, b with
    | Except.ok x, Except.ok y =>
        decidable_of_iff (x = y) ⟨fun h => by rw [h], fun h => by cases h; rfl⟩
    | Except.ok _, Except.error _ => isFalse (fun h => by cases h)
    | Except.error _, Except.ok _ => isFalse (fun h => by cases h)
    | Except.error x, Except.error y =>
        decidable_of_iff (x = y) ⟨fun h => by rw [h], fun h => by cases h; rfl⟩

/-- Result of one `try_execute_task` call: its return value, the
database afterwards, and the actions performed in order. -/
structure StepResult where
  outcome : Except String ExecutionOutcome
  db : Db
  events : List Ev
deriving DecidableEq, Repr

/-- `try_execute_task` (src/issue_delivery_worker.rs lines 90-135),
line by line: dequeue; on `None` return `EmptyQueue`; otherwise parse
the stored address with `SubscriberEmail::from_str`; on `Ok` fetch the
issue (the `?` on `get_issue` aborts the call, dropping the open
transaction so the row stays queued) and call `send_email`, whose error
is only logged; on `Err` only log. In both match arms `delete_task`
then removes the row and commits, and the call returns `TaskCompleted`.
-/
def try_execute_task (env : Env) (db : Db) : StepResult :=
  match dequeue_task db with
  | none => { outcome := Except.ok ExecutionOutcome.EmptyQueue, db := db, events := [] }
  | some t =>
    match SubscriberEmail.from_str env t.subscriber_email with
    | Except.ok email =>
      match get_issue db t.newsletter_issue_id with
      | Except.error e =>
        { outcome := Except.error e, db := db
          events := [Ev.validate t, Ev.fetchIssue t] }
      | Except.ok _issue =>
        { outcome := Except.ok ExecutionOutcome.TaskCompleted
          db := delete_task db t.newsletter_issue_id t.subscriber_email
          events := [Ev.validate t, Ev.fetchIssue t, Ev.gatewaySend t (env.sendOk email)] }
    | Except.error _ =>
      { outcome := Except.ok ExecutionOutcome.TaskCompleted
        db := delete_task db t.newsletter_issue_id t.subscriber_email
        events := [Ev.validate t] }

/-- Iterate `try_execute_task` n times, collecting the returned
outcomes (the worker loop body, as used for deterministic draining). -/
def drain (env : Env) (db : Db) : Nat → List (Except String ExecutionOutcome) × Db
  | 0 => ([], db)
  | n + 1 =>
    let r := try_execute_task env db
    let rest := drain env r.db n
    (r.outcome :: rest.1, rest.2)

/-- Iterate `try_execute_task` n times, collecting all actions. -/
def drainEvents (env : Env) (db : Db) : Nat → List Ev
  | 0 => []
  | n + 1 =>
    let r := try_execute_task env db
    r.events ++ drainEvents env r.db n

/-- Absence of store/infrastructure errors for a drain run: every
queued task whose stored address passes validation has its issue row
present, so `get_issue` cannot fail. -/
def no_store_errors (env : Env) (db : Db) : Prop :=
  ∀ t ∈ db.issue_delivery_queue,
    env.validEmail (rust_trim t.subscriber_email) = true →
      (db.newsletter_issues.lookup t.newsletter_issue_id).isSome = true

instance (env : Env) (db : Db) : Decidable (no_store_errors env db) := by
  unfold no_store_errors; infer_instance

/-- Concrete environment for witnesses: every address except "bad" is
valid, and the gateway rejects every message. -/
def envW : Env := ⟨fun s => !(s == "bad"), fun _ => false⟩

/-- Concrete database for witnesses: two pending tasks (one with an
invalid stored address) and the issue row they reference. -/
def dbW : Db :=
  ⟨[⟨1, "a@x"⟩, ⟨1, "bad"⟩], [(1, ⟨"T", "text", "html"⟩)]⟩

/-- C6 witness: in `dbW` with the queue reordered so the invalid
address "bad" is claimed first, the task is retired with no gateway
call and the valid task remains queued. -/
def dbW2 : Db :=
  ⟨[⟨1, "bad"⟩, ⟨1, "a@x"⟩], [(1, ⟨"T", "text", "html"⟩)]⟩

/-- Concrete input showing the order of actions on a claimed task. -/
def envC8 : Env := ⟨fun _ => true, fun _ => true⟩

def tC8 : Task := ⟨1, "a@x"⟩

def dbC8 : Db := ⟨[tC8], [(1, ⟨"T", "text", "html"⟩)]⟩

/-- C10 witness: with the issue row absent, the concrete task
`tC8` stays queued and ten further iterations all fail without
progress. -/
def dbC10 : Db := ⟨[tC8], []⟩

/-- `PublishParams` (the Form body of POST /admin/newsletters). The
`idempotency_key` field submitted by the integration tests is not a
field of this struct, and serde Form deserialization ignores unknown
fields, so the handler never sees a key. -/
structure PublishParams where
  title : String
  html_content : String
  text_content : String
deriving DecidableEq, Repr

/-- `PublishError` (src/routes/admin/newsletters/post.rs). -/
inductive PublishError where
  | AuthError
  | UnexpectedError
deriving DecidableEq, Repr

/-- HTTP-level responses the handler can produce: `see_other` is a 303
redirect with a Location header; the other two come from the
`ResponseError` impl. -/
inductive HttpResponse where
  | seeOther (location : String)
  | internalServerError
  | unauthorized
deriving DecidableEq, Repr

/-- `PublishError::error_response`: `UnexpectedError` maps to HTTP 500
(InternalServerError), `AuthError` to 401. -/
def error_response : PublishError → HttpResponse
  | PublishError.UnexpectedError => HttpResponse.internalServerError
  | PublishError.AuthError => HttpResponse.unauthorized

/-- Database state seen by the publish handler: the `subscriptions`
table as (email, status) rows, plus the two delivery tables that the
worker consumes. -/
structure AppDb where
  subscriptions : List (String × String)
  newsletter_issues : List (Nat × NewsletterIssue)
  issue_delivery_queue : List Task
deriving DecidableEq, Repr

/-- One `EmailClient::send_email` call performed by the handler. -/
structure EmailSend where
  recipient : String
  subject : String
  html_body : String
  text_body : String
deriving DecidableEq, Repr

/-- `get_confirmed_subscribers`: `SELECT email FROM subscriptions where
status='confirmed'`, each row parsed with `SubscriberEmail::from_str`;
parse failures are kept as `Err` entries of the returned list. -/
def get_confirmed_subscribers (env : Env) (db : AppDb) : List (Except String String) :=
  (db.subscriptions.filter fun r => r.2 == "confirmed").map
    fun r => SubscriberEmail.from_str env r.1

/-- The subscriber loop of `publish_newsletter`: an `Ok` subscriber
gets `send_email` with the form's title/html/text; a gateway error
aborts the whole handler through `?` with `UnexpectedError`; an `Err`
entry is only logged (`tracing::warn`) and skipped. When the loop ends
the handler sends a flash message and returns
`see_other("/admin/newsletters")`. Returns the gateway calls performed,
in order, and the handler result. -/
def send_loop (env : Env) (params : PublishParams) :
    List (Except String String) → List EmailSend × Except PublishError HttpResponse
  | [] => ([], Except.ok (HttpResponse.seeOther "/admin/newsletters"))
  | Except.ok email :: rest =>
    if env.sendOk email then
      let r := send_loop env params rest
      (⟨email, params.title, params.html_content, params.text_content⟩ :: r.1, r.2)
    else ([⟨email, params.title, params.html_content, params.text_content⟩],
      Except.error PublishError.UnexpectedError)
  | Except.error _ :: rest => send_loop env params rest

/-- `publish_newsletter` (src/routes/admin/newsletters/post.rs lines
52-83): fetch the confirmed subscribers, then run the send loop
synchronously. The source performs no database write at all — no
`newsletter_issues` insert, no `issue_delivery_queue` fan-out, no
idempotency record — so the resulting database state equals the input.
Returns the final database, the gateway sends performed, and the
handler result. -/
def publish_newsletter (env : Env) (db : AppDb) (params : PublishParams)
    (_user_id : Nat) : AppDb × List EmailSend × Except PublishError HttpResponse :=
  let r := send_loop env params (get_confirmed_subscribers env db)
  (db, r.1, r.2)

/-- The addresses of the `Ok` entries of a subscriber list, in order. -/
def ok_entries : List (Except String String) → List String
  | [] => []
  | Except.ok e :: rest => e :: ok_entries rest
  | Except.error _ :: rest => ok_entries rest

def env9 : Env := ⟨fun s => !(s == "bad"), fun s => !(s == "f@x")⟩

def db9 : AppDb :=
  ⟨[("ok1@x", "confirmed"), ("bad", "confirmed"), ("f@x", "confirmed"),
    ("never@x", "confirmed"), ("other@x", "pending")], [], []⟩

def params9 : PublishParams := ⟨"T", "<p>H</p>", "B"⟩

def env1 : Env := ⟨fun _ => true, fun _ => true⟩

def db1 : AppDb := ⟨[("u@x", "confirmed")], [], []⟩

def params1 : PublishParams := ⟨"Newsletter title", "<p>html</p>", "text"⟩

namespace Conc

/-!
Concurrent claim protocol. `dequeue_task` opens a transaction and runs
`SELECT ... FOR UPDATE SKIP LOCKED LIMIT 1`: it acquires a row-level
lock on one pending row that no other open transaction holds, skipping
locked rows. The lock lives until the transaction ends: `delete_task`
deletes the row and commits (releasing the lock atomically with the
delete), while a crash of the claiming process aborts the transaction,
releasing the lock and leaving the row in place. The gateway call in
`try_execute_task` happens between claim and commit and is an external
side effect that no rollback undoes. The labelled transition system
below is exactly this protocol, with callers named by `Nat`.
-/

/-- Queue-store state under concurrent claims: the pending rows of
`issue_delivery_queue`, the rows currently locked by an open claiming
transaction (tagged with the claiming caller), and the delivery
attempts performed so far (in reverse order of occurrence). -/
structure CState where
  tasks : List Task
  locked : List (Nat × Task)
  attempts : List Task
deriving DecidableEq, Repr

/-- Protocol events: caller k claims a row (`dequeue_task`), caller k
attempts delivery and retires the row (`delete_task` + commit), or
caller k attempts delivery and crashes before the commit. -/
inductive CEv where
  | claim (k : Nat) (t : Task)
  | retire (k : Nat) (t : Task)
  | crash (k : Nat) (t : Task)
deriving DecidableEq, Repr

/-- One protocol transition. `claim` requires the row to be pending and
not locked by any open transaction (`FOR UPDATE SKIP LOCKED`).
`retire` deletes the row, records the delivery attempt and releases the
lock, in one atomic commit. `crash` records the delivery attempt (the
gateway call already happened and is not rolled back) but the abort
releases the lock and leaves the row in place. -/
inductive CStep : CState → CEv → CState → Prop where
  | claim {s : CState} {k : Nat} {t : Task}
      (ht : t ∈ s.tasks) (hl : ∀ k2, (k2, t) ∉ s.locked) :
      CStep s (CEv.claim k t) { s with locked := (k, t) :: s.locked }
  | retire {s : CState} {k : Nat} {t : Task}
      (h : (k, t) ∈ s.locked) :
      CStep s (CEv.retire k t)
        { tasks := s.tasks.filter fun r => decide (r ≠ t)
          locked := s.locked.filter fun p => decide (p ≠ (k, t))
          attempts := t :: s.attempts }
  | crash {s : CState} {k : Nat} {t : Task}
      (h : (k, t) ∈ s.locked) :
      CStep s (CEv.crash k t)
        { s with
          locked := s.locked.filter fun p => decide (p ≠ (k, t))
          attempts := t :: s.attempts }

/-- States reachable from an initial queue of pending tasks (no open
claims, no attempts yet), together with the trace of events. -/
inductive CReach (init : List Task) : CState → List CEv → Prop where
  | start : CReach init ⟨init, [], []⟩ []
  | step {s : CState} {tr : List CEv} {e : CEv} {s2 : CState} :
      CReach init s tr → CStep s e s2 → CReach init s2 (tr ++ [e])

/-- The tasks received by callers along a trace, in order of claim. -/
def claimsOf (tr : List CEv) : List Task :=
  tr.filterMap fun e =>
    match e with
    | CEv.claim _ t => some t
    | _ => none

def isCrash : CEv → Bool
  | CEv.crash _ _ => true
  | _ => false

/-- No worker crashed during the trace. -/
def crashFree (tr : List CEv) : Prop :=
  ∀ e ∈ tr, isCrash e = false

instance (tr : List CEv) : Decidable (crashFree tr) := by
  unfold crashFree; infer_instance

/-- Inductive invariant of the claim protocol on crash-free traces. -/
structure Inv (init : List Task) (s : CState) (tr : List CEv) : Prop where
  tasks_nodup : s.tasks.Nodup
  locked_mem : ∀ k t, (k, t) ∈ s.locked → t ∈ s.tasks
  locked_snd_nodup : (s.locked.map Prod.snd).Nodup
  tasks_sub : ∀ t ∈ s.tasks, t ∈ init
  claims_nodup : (claimsOf tr).Nodup
  claims_iff : ∀ t, t ∈ claimsOf tr ↔
    ((∃ k, (k, t) ∈ s.locked) ∨ (t ∈ init ∧ t ∉ s.tasks))
  attempts_nodup : s.attempts.Nodup
  attempts_iff : ∀ t, t ∈ s.attempts ↔ (t ∈ init ∧ t ∉ s.tasks)

def tA : Task := ⟨1, "a@x"⟩

def tB : Task := ⟨1, "b@x"⟩

/-- Two callers (0 and 1) each claim and retire one of two tasks. -/
def trPar : List CEv :=
  [CEv.claim 0 tA, CEv.claim 1 tB, CEv.retire 0 tA, CEv.retire 1 tB]

def sPar : CState := ⟨[], [], [tB, tA]⟩

def tCr : Task := ⟨1, "a@x"⟩

def sCr : CState := ⟨[tCr], [], [tCr]⟩

/-- A caller claims the task, attempts delivery (the gateway call
happens) and crashes before `delete_task` commits: the transaction
aborts, the lock is released, and the row stays. -/
def trCr : List CEv := [CEv.claim 0 tCr, CEv.crash 0 tCr]

end Conc

lemma task_key_eq_iff (r : Task) (t : Task) :
    task_key_eq r t.newsletter_issue_id t.subscriber_email = true ↔ r = t := by
  cases r; cases t
  simp [task_key_eq, Task.mk.injEq]

lemma filter_not_key_of_not_mem (l : List Task) (t : Task) (h : t ∉ l) :
    l.filter (fun r => !(task_key_eq r t.newsletter_issue_id t.subscriber_email)) = l := by
  induction l with
  | nil => rfl
  | cons a as ih =>
    have ha : a ≠ t := by rintro rfl; exact h (List.mem_cons_self _ _)
    have hk : task_key_eq a t.newsletter_issue_id t.subscriber_email = false := by
      rcases Bool.eq_false_or_eq_true (task_key_eq a t.newsletter_issue_id t.subscriber_email)
        with hf | htr
      · exact absurd ((task_key_eq_iff a t).mp hf) ha
      · exact htr
    have hnm : t ∉ as := fun hm => h (List.mem_cons_of_mem _ hm)
    simp [List.filter_cons, hk, ih hnm]

lemma delete_task_cons (db : Db) (t : Task) (rest : List Task)
    (hq : db.issue_delivery_queue = t :: rest) (hnm : t ∉ rest) :
    (delete_task db t.newsletter_issue_id t.subscriber_email).issue_delivery_queue = rest := by
  have hk : task_key_eq t t.newsletter_issue_id t.subscriber_email = true :=
    (task_key_eq_iff t t).mpr rfl
  simp [delete_task, hq, List.filter_cons, hk, filter_not_key_of_not_mem rest t hnm]

lemma try_execute_task_empty (env : Env) (db : Db)
    (hq : db.issue_delivery_queue = []) :
    try_execute_task env db =
      { outcome := Except.ok ExecutionOutcome.EmptyQueue, db := db, events := [] } := by
  simp [try_execute_task, dequeue_task, hq]

lemma try_execute_task_invalid (env : Env) (db : Db) (t : Task) (rest : List Task)
    (hq : db.issue_delivery_queue = t :: rest)
    (hv : env.validEmail (rust_trim t.subscriber_email) = false) :
    try_execute_task env db =
      { outcome := Except.ok ExecutionOutcome.TaskCompleted
        db := delete_task db t.newsletter_issue_id t.subscriber_email
        events := [Ev.validate t] } := by
  simp [try_execute_task, dequeue_task, hq, SubscriberEmail.from_str, hv]

lemma try_execute_task_valid_found (env : Env) (db : Db) (t : Task) (rest : List Task)
    (issue : NewsletterIssue)
    (hq : db.issue_delivery_queue = t :: rest)
    (hv : env.validEmail (rust_trim t.subscriber_email) = true)
    (hl : db.newsletter_issues.lookup t.newsletter_issue_id = some issue) :
    try_execute_task env db =
      { outcome := Except.ok ExecutionOutcome.TaskCompleted
        db := delete_task db t.newsletter_issue_id t.subscriber_email
        events := [Ev.validate t, Ev.fetchIssue t,
                   Ev.gatewaySend t (env.sendOk (rust_trim t.subscriber_email))] } := by
  simp [try_execute_task, dequeue_task, hq, SubscriberEmail.from_str, hv, get_issue, hl]

lemma try_execute_task_issue_missing (env : Env) (db : Db) (t : Task) (rest : List Task)
    (hq : db.issue_delivery_queue = t :: rest)
    (hv : env.validEmail (rust_trim t.subscriber_email) = true)
    (hl : db.newsletter_issues.lookup t.newsletter_issue_id = none) :
    try_execute_task env db =
      { outcome := Except.error "RowNotFound", db := db
        events := [Ev.validate t, Ev.fetchIssue t] } := by
  simp [try_execute_task, dequeue_task, hq, SubscriberEmail.from_str, hv, get_issue, hl]

lemma try_execute_task_issues_eq (env : Env) (db : Db) :
    (try_execute_task env db).db.newsletter_issues = db.newsletter_issues := by
  rcases hq : db.issue_delivery_queue with _ | ⟨t, rest⟩
  · simp [try_execute_task_empty env db hq]
  · rcases hv : env.validEmail (rust_trim t.subscriber_email) with _ | _
    · simp [try_execute_task_invalid env db t rest hq hv, delete_task]
    · rcases hl : db.newsletter_issues.lookup t.newsletter_issue_id with _ | ⟨issue⟩
      · simp [try_execute_task_issue_missing env db t rest hq hv hl]
      · simp [try_execute_task_valid_found env db t rest issue hq hv hl, delete_task]

lemma try_execute_task_queue_sub (env : Env) (db : Db) :
    ∀ t ∈ (try_execute_task env db).db.issue_delivery_queue, t ∈ db.issue_delivery_queue := by
  rcases hq : db.issue_delivery_queue with _ | ⟨t, rest⟩
  · simp [try_execute_task_empty env db hq, hq]
  · rcases hv : env.validEmail (rust_trim t.subscriber_email) with _ | _
    · intro x hx
      rw [try_execute_task_invalid env db t rest hq hv] at hx
      simp only [delete_task, List.mem_filter] at hx
      exact hq ▸ hx.1
    · rcases hl : db.newsletter_issues.lookup t.newsletter_issue_id with _ | ⟨issue⟩
      · simp [try_execute_task_issue_missing env db t rest hq hv hl, hq]
      · intro x hx
        rw [try_execute_task_valid_found env db t rest issue hq hv hl] at hx
        simp only [delete_task, List.mem_filter] at hx
        exact hq ▸ hx.1

lemma gatewaySend_mem_events (env : Env) (db : Db) (t : Task) (ok : Bool)
    (h : Ev.gatewaySend t ok ∈ (try_execute_task env db).events) :
    t ∈ db.issue_delivery_queue := by
  rcases hq : db.issue_delivery_queue with _ | ⟨a, rest⟩
  · rw [try_execute_task_empty env db hq] at h
    simp at h
  · rcases hv : env.validEmail (rust_trim a.subscriber_email) with _ | _
    · rw [try_execute_task_invalid env db a rest hq hv] at h
      simp at h
    · rcases hl : db.newsletter_issues.lookup a.newsletter_issue_id with _ | ⟨issue⟩
      · rw [try_execute_task_issue_missing env db a rest hq hv hl] at h
        simp at h
      · rw [try_execute_task_valid_found env db a rest issue hq hv hl] at h
        simp only [List.mem_cons, List.not_mem_nil, or_false] at h
        rcases h with h | h | h
        · exact absurd h (by simp)
        · exact absurd h (by simp)
        · injection h with h1 _
          subst h1
          exact List.mem_cons_self _ _

lemma no_future_gatewaySend (env : Env) (t : Task) :
    ∀ (n : Nat) (db : Db), t ∉ db.issue_delivery_queue →
      ∀ ok, Ev.gatewaySend t ok ∉ drainEvents env db n := by
  intro n
  induction n with
  | zero => intro db _ ok; simp [drainEvents]
  | succ n ih =>
    intro db hnm ok hmem
    simp only [drainEvents, List.mem_append] at hmem
    rcases hmem with h | h
    · exact hnm (gatewaySend_mem_events env db t ok h)
    · have hnm2 : t ∉ (try_execute_task env db).db.issue_delivery_queue := fun hx =>
        hnm (try_execute_task_queue_sub env db t hx)
      exact ih (try_execute_task env db).db hnm2 ok h

lemma try_execute_task_completes (env : Env) (db : Db) (t : Task) (rest : List Task)
    (hq : db.issue_delivery_queue = t :: rest) (hnm : t ∉ rest)
    (hns : env.validEmail (rust_trim t.subscriber_email) = true →
      (db.newsletter_issues.lookup t.newsletter_issue_id).isSome = true) :
    (try_execute_task env db).outcome = Except.ok ExecutionOutcome.TaskCompleted ∧
    (try_execute_task env db).db.issue_delivery_queue = rest ∧
    (try_execute_task env db).db.newsletter_issues = db.newsletter_issues := by
  rcases hv : env.validEmail (rust_trim t.subscriber_email) with _ | _
  · rw [try_execute_task_invalid env db t rest hq hv]
    exact ⟨rfl, delete_task_cons db t rest hq hnm, rfl⟩
  · have hs := hns hv
    rcases hl : db.newsletter_issues.lookup t.newsletter_issue_id with _ | ⟨issue⟩
    · rw [hl] at hs; simp at hs
    · rw [try_execute_task_valid_found env db t rest issue hq hv hl]
      exact ⟨rfl, delete_task_cons db t rest hq hnm, rfl⟩

lemma drain_outcomes (env : Env) :
    ∀ (q : List Task) (db : Db), db.issue_delivery_queue = q → q.Nodup →
      no_store_errors env db →
      (drain env db (q.length + 1)).1 =
        List.replicate q.length (Except.ok ExecutionOutcome.TaskCompleted) ++
          [Except.ok ExecutionOutcome.EmptyQueue] := by
  intro q
  induction q with
  | nil =>
    intro db hq _ _
    simp [drain, try_execute_task_empty env db hq]
  | cons t rest ih =>
    intro db hq hnd hns
    have hnm : t ∉ rest := (List.nodup_cons.mp hnd).1
    have hc := try_execute_task_completes env db t rest hq hnm
      (fun hv => hns t (by rw [hq]; exact List.mem_cons_self _ _) hv)
    have hq2 : (try_execute_task env db).db.issue_delivery_queue = rest := hc.2.1
    have hns2 : no_store_errors env (try_execute_task env db).db := by
      intro x hx hvx
      rw [hc.2.2]
      exact hns x (by rw [hq]; exact List.mem_cons_of_mem _ (hq2 ▸ hx)) hvx
    have hrec := ih (try_execute_task env db).db hq2 (List.nodup_cons.mp hnd).2 hns2
    have hlen : (t :: rest).length = rest.length + 1 := rfl
    rw [hlen]
    have hstep : (drain env db (rest.length + 1 + 1)).1 =
        (try_execute_task env db).outcome ::
          (drain env (try_execute_task env db).db (rest.length + 1)).1 := rfl
    rw [hstep, hc.1, hrec, List.replicate_succ, List.cons_append]

/-- C4: starting from a queue of M pending delivery tasks and in the
absence of store/infrastructure errors, M invocations of the single
worker iteration `try_execute_task` each return `TaskCompleted` and the
next one returns `EmptyQueue`, regardless of the per-task delivery
outcome (gateway success, gateway failure, or invalid stored address —
the oracles `env.sendOk` and `env.validEmail` are arbitrary). -/
theorem queue_drains (env : Env) (db : Db) (M : Nat)
    (hM : db.issue_delivery_queue.length = M)
    (hnd : db.issue_delivery_queue.Nodup)
    (hns : no_store_errors env db) :
    (drain env db (M + 1)).1 =
      List.replicate M (Except.ok ExecutionOutcome.TaskCompleted) ++
        [Except.ok ExecutionOutcome.EmptyQueue] := by
  subst hM
  exact drain_outcomes env db.issue_delivery_queue db rfl hnd hns

/-- C4 witness: the hypotheses of `queue_drains` hold for `envW` and
`dbW` (M = 2, even though every gateway call fails there), and the two
tasks drain in two iterations followed by `EmptyQueue`. -/
theorem queue_drains_witness :
    (dbW.issue_delivery_queue.length = 2 ∧ dbW.issue_delivery_queue.Nodup ∧
      no_store_errors envW dbW) ∧
    (drain envW dbW 3).1 =
      List.replicate 2 (Except.ok ExecutionOutcome.TaskCompleted) ++
        [Except.ok ExecutionOutcome.EmptyQueue] :=
  ⟨⟨by decide, by decide, by decide⟩,
    queue_drains envW dbW 2 (by decide) (by decide) (by decide)⟩

/-- C5: when the email gateway rejects the message of a claimed task
(valid stored address, issue row present, `sendOk` = false), the worker
still retires the task: the iteration returns `TaskCompleted`, exactly
one gateway attempt is made for the task, the row is gone afterwards,
and no later iteration ever attempts it again — no retry, no attempt
counting. -/
theorem gateway_failure_still_retires (env : Env) (db : Db) (t : Task) (rest : List Task)
    (issue : NewsletterIssue)
    (hq : db.issue_delivery_queue = t :: rest)
    (hnm : t ∉ rest)
    (hv : env.validEmail (rust_trim t.subscriber_email) = true)
    (hl : db.newsletter_issues.lookup t.newsletter_issue_id = some issue)
    (hfail : env.sendOk (rust_trim t.subscriber_email) = false) :
    (try_execute_task env db).outcome = Except.ok ExecutionOutcome.TaskCompleted ∧
    (try_execute_task env db).events =
      [Ev.validate t, Ev.fetchIssue t, Ev.gatewaySend t false] ∧
    t ∉ (try_execute_task env db).db.issue_delivery_queue ∧
    (∀ n ok, Ev.gatewaySend t ok ∉ drainEvents env (try_execute_task env db).db n) := by
  have h := try_execute_task_valid_found env db t rest issue hq hv hl
  have hq2 : (try_execute_task env db).db.issue_delivery_queue = rest := by
    rw [h]; exact delete_task_cons db t rest hq hnm
  have hnotin : t ∉ (try_execute_task env db).db.issue_delivery_queue := by
    rw [hq2]; exact hnm
  refine ⟨by rw [h], by rw [h, hfail], hnotin, ?_⟩
  intro n ok
  exact no_future_gatewaySend env t n (try_execute_task env db).db hnotin ok

/-- C5 witness: for the concrete `envW`, `dbW` (where the gateway
rejects everything) the first task is retired despite the gateway
failure and never attempted again. -/
theorem gateway_failure_still_retires_witness :
    (dbW.issue_delivery_queue = (⟨1, "a@x"⟩ : Task) :: [⟨1, "bad"⟩] ∧
      (⟨1, "a@x"⟩ : Task) ∉ [(⟨1, "bad"⟩ : Task)] ∧
      envW.validEmail (rust_trim "a@x") = true ∧
      dbW.newsletter_issues.lookup 1 = some ⟨"T", "text", "html"⟩ ∧
      envW.sendOk (rust_trim "a@x") = false) ∧
    ((try_execute_task envW dbW).outcome = Except.ok ExecutionOutcome.TaskCompleted ∧
      (try_execute_task envW dbW).events =
        [Ev.validate ⟨1, "a@x"⟩, Ev.fetchIssue ⟨1, "a@x"⟩,
          Ev.gatewaySend ⟨1, "a@x"⟩ false] ∧
      (⟨1, "a@x"⟩ : Task) ∉ (try_execute_task envW dbW).db.issue_delivery_queue ∧
      (∀ n ok, Ev.gatewaySend ⟨1, "a@x"⟩ ok ∉
        drainEvents envW (try_execute_task envW dbW).db n)) :=
  ⟨⟨by decide, by decide, by decide, by decide, by decide⟩,
    gateway_failure_still_retires envW dbW ⟨1, "a@x"⟩ [⟨1, "bad"⟩] ⟨"T", "text", "html"⟩
      (by decide) (by decide) (by decide) (by decide) (by decide)⟩

/-- C6: a claimed task whose stored address fails validation is retired
on that first claim with no gateway call at all; the iteration returns
the normal `TaskCompleted` outcome (not an error) and the remaining
tasks stay queued in place, so they are not blocked. -/
theorem invalid_address_retired_without_gateway (env : Env) (db : Db) (t : Task)
    (rest : List Task)
    (hq : db.issue_delivery_queue = t :: rest)
    (hnm : t ∉ rest)
    (hv : env.validEmail (rust_trim t.subscriber_email) = false) :
    (try_execute_task env db).outcome = Except.ok ExecutionOutcome.TaskCompleted ∧
    (try_execute_task env db).events = [Ev.validate t] ∧
    (∀ x ok, Ev.gatewaySend x ok ∉ (try_execute_task env db).events) ∧
    (try_execute_task env db).db.issue_delivery_queue = rest := by
  have h := try_execute_task_invalid env db t rest hq hv
  refine ⟨by rw [h], by rw [h], ?_, by rw [h]; exact delete_task_cons db t rest hq hnm⟩
  intro x ok hmem
  rw [h] at hmem
  simp at hmem

theorem invalid_address_retired_without_gateway_witness :
    (dbW2.issue_delivery_queue = (⟨1, "bad"⟩ : Task) :: [⟨1, "a@x"⟩] ∧
      (⟨1, "bad"⟩ : Task) ∉ [(⟨1, "a@x"⟩ : Task)] ∧
      envW.validEmail (rust_trim "bad") = false) ∧
    ((try_execute_task envW dbW2).outcome = Except.ok ExecutionOutcome.TaskCompleted ∧
      (try_execute_task envW dbW2).events = [Ev.validate ⟨1, "bad"⟩] ∧
      (∀ x ok, Ev.gatewaySend x ok ∉ (try_execute_task envW dbW2).events) ∧
      (try_execute_task envW dbW2).db.issue_delivery_queue = [⟨1, "a@x"⟩]) :=
  ⟨⟨by decide, by decide, by decide⟩,
    invalid_address_retired_without_gateway envW dbW2 ⟨1, "bad"⟩ [⟨1, "a@x"⟩]
      (by decide) (by decide) (by decide)⟩

/-- C8 counterexample: on a claimed task the worker does NOT fetch the
issue first — its first action is the address validation, and the issue
fetch only comes second. This refutes the claimed order (fetch, then
validate, then send). -/
theorem fetch_before_validate_cex :
    (try_execute_task envC8 dbC8).events =
      [Ev.validate tC8, Ev.fetchIssue tC8, Ev.gatewaySend tC8 true] ∧
    (try_execute_task envC8 dbC8).events.head? ≠ some (Ev.fetchIssue tC8) := by
  decide

/-- C8 (amended): on every claimed task the worker first validates the
stored recipient address; only if it is valid it fetches the issue
content by id; and only after a successful fetch it calls the email
gateway. -/
theorem claimed_task_action_order (env : Env) (db : Db) (t : Task) (rest : List Task)
    (hq : db.issue_delivery_queue = t :: rest) :
    (try_execute_task env db).events =
      if env.validEmail (rust_trim t.subscriber_email) then
        if (db.newsletter_issues.lookup t.newsletter_issue_id).isSome then
          [Ev.validate t, Ev.fetchIssue t,
            Ev.gatewaySend t (env.sendOk (rust_trim t.subscriber_email))]
        else [Ev.validate t, Ev.fetchIssue t]
      else [Ev.validate t] := by
  rcases hv : env.validEmail (rust_trim t.subscriber_email) with _ | _
  · rw [try_execute_task_invalid env db t rest hq hv]
    simp
  · rcases hl : db.newsletter_issues.lookup t.newsletter_issue_id with _ | ⟨issue⟩
    · rw [try_execute_task_issue_missing env db t rest hq hv hl]
      simp
    · rw [try_execute_task_valid_found env db t rest issue hq hv hl]
      simp

/-- C8 witness: the amended order at the concrete input `dbC8`. -/
theorem claimed_task_action_order_witness :
    (dbC8.issue_delivery_queue = tC8 :: []) ∧
    (try_execute_task envC8 dbC8).events =
      (if envC8.validEmail (rust_trim tC8.subscriber_email) then
        if (dbC8.newsletter_issues.lookup tC8.newsletter_issue_id).isSome then
          [Ev.validate tC8, Ev.fetchIssue tC8,
            Ev.gatewaySend tC8 (envC8.sendOk (rust_trim tC8.subscriber_email))]
        else [Ev.validate tC8, Ev.fetchIssue tC8]
      else [Ev.validate tC8]) :=
  ⟨by decide, claimed_task_action_order envC8 dbC8 tC8 [] (by decide)⟩

/-- C10: when a claimed task has a valid address but its issue row is
missing, `try_execute_task` propagates the `RowNotFound` error without
deleting the task and without touching the gateway; the database is
unchanged, so the same task is claimable again, and any number of
further worker iterations keep failing the same way without making
progress — the missing row behaves as a transient infrastructure error,
not a permanent per-task one. -/
theorem missing_issue_is_transient (env : Env) (db : Db) (t : Task) (rest : List Task)
    (hq : db.issue_delivery_queue = t :: rest)
    (hv : env.validEmail (rust_trim t.subscriber_email) = true)
    (hl : db.newsletter_issues.lookup t.newsletter_issue_id = none) :
    (try_execute_task env db).outcome = Except.error "RowNotFound" ∧
    (try_execute_task env db).db = db ∧
    t ∈ (try_execute_task env db).db.issue_delivery_queue ∧
    (∀ x ok, Ev.gatewaySend x ok ∉ (try_execute_task env db).events) ∧
    (∀ n, drain env db n = (List.replicate n (Except.error "RowNotFound"), db)) := by
  have h := try_execute_task_issue_missing env db t rest hq hv hl
  have hdb : (try_execute_task env db).db = db := by rw [h]
  refine ⟨by rw [h], hdb, ?_, ?_, ?_⟩
  · rw [hdb, hq]; exact List.mem_cons_self _ _
  · intro x ok hmem
    rw [h] at hmem
    simp at hmem
  · intro n
    induction n with
    | zero => rfl
    | succ n ih =>
      have hstep : drain env db (n + 1) =
          ((try_execute_task env db).outcome :: (drain env (try_execute_task env db).db n).1,
            (drain env (try_execute_task env db).db n).2) := rfl
      rw [hstep, hdb, ih, h]
      simp [List.replicate_succ]

theorem missing_issue_is_transient_witness :
    (dbC10.issue_delivery_queue = tC8 :: [] ∧
      envC8.validEmail (rust_trim tC8.subscriber_email) = true ∧
      dbC10.newsletter_issues.lookup tC8.newsletter_issue_id = none) ∧
    ((try_execute_task envC8 dbC10).outcome = Except.error "RowNotFound" ∧
      (try_execute_task envC8 dbC10).db = dbC10 ∧
      tC8 ∈ (try_execute_task envC8 dbC10).db.issue_delivery_queue ∧
      (∀ x ok, Ev.gatewaySend x ok ∉ (try_execute_task envC8 dbC10).events) ∧
      (∀ n, drain envC8 dbC10 n =
        (List.replicate n (Except.error "RowNotFound"), dbC10))) :=
  ⟨⟨by decide, by decide, by decide⟩,
    missing_issue_is_transient envC8 dbC10 tC8 [] (by decide) (by decide) (by decide)⟩

lemma send_loop_fail (env : Env) (params : PublishParams) :
    ∀ (pre : List (Except String String)) (post : List (Except String String))
      (e : String),
      (∀ x ∈ ok_entries pre, env.sendOk x = true) → env.sendOk e = false →
      send_loop env params (pre ++ Except.ok e :: post) =
        ((ok_entries pre).map
            (fun x => ⟨x, params.title, params.html_content, params.text_content⟩) ++
          [⟨e, params.title, params.html_content, params.text_content⟩],
          Except.error PublishError.UnexpectedError) := by
  intro pre
  induction pre with
  | nil =>
    intro post e _ hfail
    simp [send_loop, ok_entries, hfail]
  | cons x rest ih =>
    intro post e hpre hfail
    cases x with
    | ok em =>
      have hok : env.sendOk em = true :=
        hpre em (by rw [show ok_entries (Except.ok em :: rest) = em :: ok_entries rest
          from rfl]; exact List.mem_cons_self _ _)
      have hrec := ih post e
        (fun y hy => hpre y (by rw [show ok_entries (Except.ok em :: rest) =
          em :: ok_entries rest from rfl]; exact List.mem_cons_of_mem _ hy)) hfail
      simp [send_loop, hok, hrec, ok_entries]
    | error er =>
      have hrec := ih post e
        (fun y hy => hpre y (by rw [show ok_entries (Except.error er :: rest) =
          ok_entries rest from rfl]; exact hy)) hfail
      simp [send_loop, hrec, ok_entries]

/-- C9: if the gateway fails for some confirmed subscriber `e` while
every valid subscriber before it succeeds, `publish_newsletter` returns
`UnexpectedError` — rendered as HTTP 500 — immediately: the send list
stops at `e` and nothing after it in the fetched list is attempted,
while invalid stored addresses before `e` are skipped (absent from the
sends) without aborting the request. -/
theorem gateway_error_aborts_publish (env : Env) (db : AppDb) (params : PublishParams)
    (user_id : Nat) (pre post : List (Except String String)) (e : String)
    (hsubs : get_confirmed_subscribers env db = pre ++ Except.ok e :: post)
    (hpre : ∀ x ∈ ok_entries pre, env.sendOk x = true)
    (hfail : env.sendOk e = false) :
    (publish_newsletter env db params user_id).2.2 =
      Except.error PublishError.UnexpectedError ∧
    error_response PublishError.UnexpectedError = HttpResponse.internalServerError ∧
    (publish_newsletter env db params user_id).2.1 =
      (ok_entries pre).map
          (fun x => ⟨x, params.title, params.html_content, params.text_content⟩) ++
        [⟨e, params.title, params.html_content, params.text_content⟩] := by
  have h := send_loop_fail env params pre post e hpre hfail
  constructor
  · show (send_loop env params (get_confirmed_subscribers env db)).2 = _
    rw [hsubs, h]
  constructor
  · rfl
  · show (send_loop env params (get_confirmed_subscribers env db)).1 = _
    rw [hsubs, h]

/-- C9 witness: with four confirmed subscribers — a valid one, an
invalid stored address, one the gateway rejects, and one after it — the
handler returns the 500-rendered error, sends to the first and the
failing one only, and never reaches the fourth. -/
theorem gateway_error_aborts_publish_witness :
    (get_confirmed_subscribers env9 db9 =
      [Except.ok "ok1@x", Except.error ("Invalid email address " ++ "bad")] ++
        Except.ok "f@x" :: [Except.ok "never@x"] ∧
      (∀ x ∈ ok_entries [Except.ok "ok1@x",
        Except.error ("Invalid email address " ++ "bad")], env9.sendOk x = true) ∧
      env9.sendOk "f@x" = false) ∧
    ((publish_newsletter env9 db9 params9 7).2.2 =
      Except.error PublishError.UnexpectedError ∧
      error_response PublishError.UnexpectedError = HttpResponse.internalServerError ∧
      (publish_newsletter env9 db9 params9 7).2.1 =
        (ok_entries [Except.ok "ok1@x",
            Except.error ("Invalid email address " ++ "bad")]).map
            (fun x => ⟨x, params9.title, params9.html_content, params9.text_content⟩) ++
          [⟨"f@x", params9.title, params9.html_content, params9.text_content⟩]) :=
  ⟨⟨by decide, by decide, by decide⟩,
    gateway_error_aborts_publish env9 db9 params9 7
      [Except.ok "ok1@x", Except.error ("Invalid email address " ++ "bad")]
      [Except.ok "never@x"] "f@x" (by decide) (by decide) (by decide)⟩

/-- C1: the deployed handler implements no idempotency — it never reads
an idempotency key and re-runs the send loop on every submission.
Submitting the identical (user, key, payload) twice in sequence (the
second run starting from the database state the first one left) sends
the newsletter email to the one confirmed subscriber on each
submission: two gateway sends in total instead of the exactly-once
execution the repository's own test
`newsletter_creation_is_idempotent` demands. -/
theorem resubmission_resends_email :
    (publish_newsletter env1 db1 params1 7).2.1 =
      [⟨"u@x", "Newsletter title", "<p>html</p>", "text"⟩] ∧
    (publish_newsletter env1 (publish_newsletter env1 db1 params1 7).1 params1 7).2.1 =
      [⟨"u@x", "Newsletter title", "<p>html</p>", "text"⟩] ∧
    ((publish_newsletter env1 db1 params1 7).2.1 ++
        (publish_newsletter env1 (publish_newsletter env1 db1 params1 7).1
          params1 7).2.1).length = 2 := by
  decide

/-- C2: a successful publish (303 redirect) with exactly one confirmed
recipient leaves zero rows in `issue_delivery_queue` and no
`newsletter_issues` row: the handler writes neither table (it sends
synchronously instead of fanning out delivery tasks), so the
all-or-nothing fan-out the spec describes never happens at all. -/
theorem publish_creates_no_issue_and_no_tasks :
    (publish_newsletter env1 db1 params1 7).2.2 =
      Except.ok (HttpResponse.seeOther "/admin/newsletters") ∧
    (get_confirmed_subscribers env1 db1).length = 1 ∧
    (publish_newsletter env1 db1 params1 7).1.issue_delivery_queue = [] ∧
    (publish_newsletter env1 db1 params1 7).1.newsletter_issues = [] := by
  decide

namespace Conc

lemma crashFree_append_left {tr : List CEv} {e : CEv} (h : crashFree (tr ++ [e])) :
    crashFree tr :=
  fun x hx => h x (List.mem_append_left _ hx)

lemma claimsOf_append (tr : List CEv) (e : CEv) :
    claimsOf (tr ++ [e]) = claimsOf tr ++ claimsOf [e] :=
  List.filterMap_append _ _ _

lemma creach_inv {init : List Task} (hinit : init.Nodup) {s : CState} {tr : List CEv}
    (hr : CReach init s tr) : crashFree tr → Inv init s tr := by
  induction hr with
  | start =>
    intro _
    refine ⟨hinit, ?_, ?_, fun t ht => ht, ?_, ?_, ?_, ?_⟩
    · intro k t h2; exact absurd h2 (List.not_mem_nil _)
    · simp
    · simp [claimsOf]
    · intro t; simp [claimsOf]
    · simp
    · intro t; simp
  | step hprev hstep ih =>
    intro hcf
    have inv := ih (crashFree_append_left hcf)
    cases hstep with
    | claim ht hl =>
      rename_i s tr k t
      have hclaims : claimsOf (tr ++ [CEv.claim k t]) = claimsOf tr ++ [t] := by
        rw [claimsOf_append]; rfl
      have htnc : t ∉ claimsOf tr := by
        intro hc
        rcases (inv.claims_iff t).mp hc with ⟨k2, hk2⟩ | ⟨-, hnt⟩
        · exact hl k2 hk2
        · exact hnt ht
      refine ⟨inv.tasks_nodup, ?_, ?_, inv.tasks_sub, ?_, ?_, inv.attempts_nodup,
        inv.attempts_iff⟩
      · intro k2 t2 h2
        rcases List.mem_cons.mp h2 with heq | hmem
        · injection heq with h1 h2'
          subst h2'
          exact ht
        · exact inv.locked_mem k2 t2 hmem
      · refine List.nodup_cons.mpr ⟨?_, inv.locked_snd_nodup⟩
        intro hmem
        rcases List.mem_map.mp hmem with ⟨p, hp, hps⟩
        rcases p with ⟨k2, t2⟩
        cases hps
        exact hl k2 hp
      · rw [hclaims]
        exact List.Nodup.append inv.claims_nodup (List.nodup_singleton t)
          (fun x hx hxt => htnc (by rwa [List.mem_singleton.mp hxt] at hx))
      · intro t2
        rw [hclaims]
        constructor
        · intro hmem
          rcases List.mem_append.mp hmem with hmem | hmem
          · rcases (inv.claims_iff t2).mp hmem with ⟨k2, hk2⟩ | hother
            · exact Or.inl ⟨k2, List.mem_cons_of_mem _ hk2⟩
            · exact Or.inr hother
          · have heq : t2 = t := List.mem_singleton.mp hmem
            subst heq
            exact Or.inl ⟨k, List.mem_cons_self _ _⟩
        · rintro (⟨k2, hk2⟩ | hother)
          · rcases List.mem_cons.mp hk2 with heq | hmem
            · injection heq with h1 h2'
              subst h2'
              exact List.mem_append.mpr (Or.inr (List.mem_singleton_self _))
            · exact List.mem_append.mpr
                (Or.inl ((inv.claims_iff t2).mpr (Or.inl ⟨k2, hmem⟩)))
          · exact List.mem_append.mpr
              (Or.inl ((inv.claims_iff t2).mpr (Or.inr hother)))
    | retire h =>
      rename_i s tr k t
      have htt : t ∈ s.tasks := inv.locked_mem k t h
      have hti : t ∈ init := inv.tasks_sub t htt
      have hclaims : claimsOf (tr ++ [CEv.retire k t]) = claimsOf tr := by
        rw [claimsOf_append]; simp [claimsOf]
      have hmt : ∀ x : Task,
          x ∈ s.tasks.filter (fun r => decide (r ≠ t)) ↔ (x ∈ s.tasks ∧ x ≠ t) := by
        intro x; simp [List.mem_filter]
      have hml : ∀ p : Nat × Task,
          p ∈ s.locked.filter (fun p => decide (p ≠ (k, t))) ↔
            (p ∈ s.locked ∧ p ≠ (k, t)) := by
        intro p; simp [List.mem_filter]
      refine ⟨inv.tasks_nodup.filter _, ?_, ?_, ?_, ?_, ?_, ?_, ?_⟩
      · intro k2 t2 h2
        have h2' := (hml (k2, t2)).mp h2
        refine (hmt t2).mpr ⟨inv.locked_mem k2 t2 h2'.1, ?_⟩
        intro heq
        subst heq
        exact h2'.2 (List.inj_on_of_nodup_map inv.locked_snd_nodup h2'.1 h rfl)
      · exact inv.locked_snd_nodup.sublist ((List.filter_sublist _).map Prod.snd)
      · intro t2 ht2
        exact inv.tasks_sub t2 ((hmt t2).mp ht2).1
      · rw [hclaims]; exact inv.claims_nodup
      · intro t2
        rw [hclaims, inv.claims_iff t2]
        constructor
        · rintro (⟨k2, hk2⟩ | ⟨hi, hnt⟩)
          · by_cases heq : (k2, t2) = (k, t)
            · injection heq with h1 h2'
              subst h2'
              exact Or.inr ⟨hti, fun hc => ((hmt t2).mp hc).2 rfl⟩
            · exact Or.inl ⟨k2, (hml (k2, t2)).mpr ⟨hk2, heq⟩⟩
          · exact Or.inr ⟨hi, fun hc => hnt ((hmt t2).mp hc).1⟩
        · rintro (⟨k2, hk2⟩ | ⟨hi, hnt2⟩)
          · exact Or.inl ⟨k2, ((hml (k2, t2)).mp hk2).1⟩
          · by_cases hmem : t2 ∈ s.tasks
            · have heq : t2 = t := by
                by_contra hne
                exact hnt2 ((hmt t2).mpr ⟨hmem, hne⟩)
              subst heq
              exact Or.inl ⟨k, h⟩
            · exact Or.inr ⟨hi, hmem⟩
      · exact List.nodup_cons.mpr
          ⟨fun hc => ((inv.attempts_iff t).mp hc).2 htt, inv.attempts_nodup⟩
      · intro t2
        constructor
        · intro hmem
          rcases List.mem_cons.mp hmem with heq | hmem2
          · subst heq
            exact ⟨hti, fun hc => ((hmt t2).mp hc).2 rfl⟩
          · have h3 := (inv.attempts_iff t2).mp hmem2
            exact ⟨h3.1, fun hc => h3.2 ((hmt t2).mp hc).1⟩
        · rintro ⟨hi, hnt2⟩
          by_cases hmem : t2 ∈ s.tasks
          · have heq : t2 = t := by
              by_contra hne
              exact hnt2 ((hmt t2).mpr ⟨hmem, hne⟩)
            subst heq
            exact List.mem_cons_self _ _
          · exact List.mem_cons_of_mem _ ((inv.attempts_iff t2).mpr ⟨hi, hmem⟩)
    | crash h =>
      rename_i s tr k t
      exact absurd
        (hcf (CEv.crash k t) (List.mem_append_right _ (List.mem_singleton_self _)))
        (by simp [isCrash])

/-- C3: for any number of callers running `dequeue_task` concurrently
against a queue of pending tasks (any crash-free interleaving of claim
and retire steps), the claims partition the tasks: no task is ever
received by two callers (the claimed tasks are pairwise distinct
across all callers combined), and once the queue has fully drained
every initial task was received exactly once. -/
theorem at_most_one_claim (init : List Task) (s : CState) (tr : List CEv)
    (hinit : init.Nodup) (hr : CReach init s tr) (hcf : crashFree tr) :
    (claimsOf tr).Nodup ∧
    (s.tasks = [] → s.locked = [] → ∀ t, t ∈ claimsOf tr ↔ t ∈ init) := by
  have inv := creach_inv hinit hr hcf
  refine ⟨inv.claims_nodup, ?_⟩
  intro hts hlk t
  rw [inv.claims_iff t]
  constructor
  · rintro (⟨k, hk⟩ | ⟨hi, -⟩)
    · rw [hlk] at hk
      exact absurd hk (List.not_mem_nil _)
    · exact hi
  · intro hi
    exact Or.inr ⟨hi, by rw [hts]; exact List.not_mem_nil _⟩

lemma creach_par : CReach [tA, tB] sPar trPar := by
  have st1 : CStep ⟨[tA, tB], [], []⟩ (CEv.claim 0 tA) ⟨[tA, tB], [(0, tA)], []⟩ :=
    CStep.claim (by decide) (by intro k2 h; exact absurd h (List.not_mem_nil _))
  have st2 : CStep ⟨[tA, tB], [(0, tA)], []⟩ (CEv.claim 1 tB)
      ⟨[tA, tB], [(1, tB), (0, tA)], []⟩ := by
    refine CStep.claim (by decide) ?_
    intro k2 hmem
    simp only [List.mem_singleton] at hmem
    have hsnd : tB = tA := congrArg Prod.snd hmem
    exact absurd hsnd (by decide)
  have st3 := CStep.retire (s := ⟨[tA, tB], [(1, tB), (0, tA)], []⟩)
    (k := 0) (t := tA) (by decide)
  have e3t : ([tA, tB].filter fun r => decide (r ≠ tA)) = [tB] := by decide
  have e3l : ([(1, tB), (0, tA)].filter fun p => decide (p ≠ ((0 : Nat), tA)))
      = [(1, tB)] := by decide
  rw [e3t, e3l] at st3
  have st4 := CStep.retire (s := ⟨[tB], [(1, tB)], [tA]⟩)
    (k := 1) (t := tB) (by decide)
  have e4t : ([tB].filter fun r => decide (r ≠ tB)) = [] := by decide
  have e4l : ([(1, tB)].filter fun p => decide (p ≠ ((1 : Nat), tB))) = [] := by decide
  rw [e4t, e4l] at st4
  exact CReach.step (CReach.step (CReach.step (CReach.step CReach.start st1) st2) st3) st4

/-- C3 witness: two callers claiming two tasks concurrently; the claims
are pairwise distinct and cover both tasks once the queue is empty. -/
theorem at_most_one_claim_witness :
    ([tA, tB].Nodup ∧ crashFree trPar) ∧
    ((claimsOf trPar).Nodup ∧
      (sPar.tasks = [] → sPar.locked = [] → ∀ t, t ∈ claimsOf trPar ↔ t ∈ [tA, tB])) :=
  ⟨⟨by decide, by decide⟩,
    at_most_one_claim [tA, tB] sPar trPar (by decide) creach_par (by decide)⟩

/-- C7 counterexample: `sCr` is reachable (a worker crashed between its
delivery attempt and the deleting commit), the task row still exists,
yet delivery has already been attempted once — refuting, over all
reachable states, that a task row exists iff delivery has not been
attempted. -/
theorem task_row_exists_yet_attempted_cex :
    CReach [tCr] sCr trCr ∧ tCr ∈ sCr.tasks ∧ sCr.attempts.count tCr = 1 := by
  refine ⟨?_, by decide, by decide⟩
  have st1 : CStep ⟨[tCr], [], []⟩ (CEv.claim 0 tCr) ⟨[tCr], [(0, tCr)], []⟩ :=
    CStep.claim (by decide) (by intro k2 h; exact absurd h (List.not_mem_nil _))
  have st2 := CStep.crash (s := ⟨[tCr], [(0, tCr)], []⟩) (k := 0) (t := tCr) (by decide)
  have e2 : ([(0, tCr)].filter fun p => decide (p ≠ ((0 : Nat), tCr))) = [] := by decide
  rw [e2] at st2
  exact CReach.step (CReach.step CReach.start st1) st2

/-- C7 (amended): in every crash-free reachable state, a delivery-task
row exists iff delivery for it has not been attempted (zero attempts),
and once the row is absent the delivery was attempted exactly once.
After a worker crash between the delivery attempt and its finalizing
commit the row survives although an attempt was made (see the
counterexample), so the invariant is stated for crash-free traces. -/
theorem task_row_iff_unattempted (init : List Task) (s : CState) (tr : List CEv)
    (hinit : init.Nodup) (hr : CReach init s tr) (hcf : crashFree tr) :
    ∀ t ∈ init, (t ∈ s.tasks → s.attempts.count t = 0) ∧
      (t ∉ s.tasks → s.attempts.count t = 1) := by
  have inv := creach_inv hinit hr hcf
  intro t hi
  constructor
  · intro hmem
    rw [List.count_eq_zero]
    intro hc
    exact ((inv.attempts_iff t).mp hc).2 hmem
  · intro hnm
    exact List.count_eq_one_of_mem inv.attempts_nodup ((inv.attempts_iff t).mpr ⟨hi, hnm⟩)

/-- C7 witness: after the crash-free run `trPar`, both tasks have been
retired and each was attempted exactly once. -/
theorem task_row_iff_unattempted_witness :
    ([tA, tB].Nodup ∧ crashFree trPar ∧ tA ∈ [tA, tB]) ∧
    ((tA ∈ sPar.tasks → sPar.attempts.count tA = 0) ∧
      (tA ∉ sPar.tasks → sPar.attempts.count tA = 1)) :=
  ⟨⟨by decide, by decide, by decide⟩,
    task_row_iff_unattempted [tA, tB] sPar trPar (by decide) creach_par (by decide)
      tA (by decide)⟩

end Conc

end Zero2Prod
